import Mathlib

/-!
Verification development for the NumericalTest question-generation engine.

The Python sources under `src/` are shallowly embedded below:
pure computations become Lean functions, every call to the pseudo-random
stream (`random.randint`, `random.choice`, `random.shuffle`, padding draws)
becomes an explicit argument (a number, or a stream `ℕ → ℕ` of draws), and
fallible operations (Python list indexing, `ord`, `float(...)`) return
`Option`.  Machine integers are modelled by `ℕ`/`ℤ` (Python ints are
unbounded, so no wrap-around is involved) and `fractions.Fraction` by `ℚ`
(both keep values normalised: coprime numerator/denominator, positive
denominator).
-/

namespace NumericalTest

/-! ### Models of Python primitives -/

/-- Model of Python list indexing `xs[i]` with a possibly negative index:
negative indices count from the end; an index out of range is an
`IndexError`, modelled as `none`. -/
def pyListIndex? (xs : List String) (i : ℤ) : Option String :=
  if 0 ≤ i then xs.get? i.toNat
  else if i.natAbs ≤ xs.length then xs.get? (xs.length - i.natAbs)
  else none

/-- Model of Python `ord` applied to a string: defined only on
single-character strings (otherwise `ord` raises `TypeError`). -/
def pyOrd? (s : String) : Option ℕ :=
  match s.data with
  | [c] => some c.toNat
  | _ => none

/-- Numeric value of a list of decimal digit characters. -/
def digitsVal (cs : List Char) : ℕ :=
  cs.foldl (fun n c => 10 * n + (c.toNat - 48)) 0

/-- Model of Python `str.isdigit` (ASCII digits). -/
def pyIsDigit (s : String) : Bool :=
  !s.data.isEmpty && s.data.all Char.isDigit

/-- Model of Python `float(s)` as an exact rational: an optional sign,
then either a digit run or `digits.digits`.  Unparseable text is a
`ValueError`, modelled as `none`. -/
def pyFloat? (s : String) : Option ℚ :=
  let sgn : ℚ := if s.data.head? = some '-' then -1 else 1
  let body : List Char :=
    match s.data with
    | '-' :: r => r
    | '+' :: r => r
    | r => r
  if !body.isEmpty && body.all Char.isDigit then
    some (sgn * (digitsVal body : ℚ))
  else
    match body.splitOn '.' with
    | [ip, fp] =>
      if !(ip ++ fp).isEmpty && (ip ++ fp).all Char.isDigit then
        some (sgn * ((digitsVal ip : ℚ) + (digitsVal fp : ℚ) / (10 : ℚ) ^ fp.length))
      else none
    | _ => none

/-- Model of Python `random.shuffle`: the draw stream `js` selects, at
each step, which of the remaining elements comes next (every permutation
is realisable, and a concrete stream yields a concrete permutation).
The fuel is in practice the list length. -/
def selShuffle : ℕ → List String → (ℕ → ℕ) → List String
  | 0, xs, _ => xs
  | _ + 1, [], _ => []
  | f + 1, x :: rest, js =>
      let a := (x :: rest).get
        ⟨js 0 % (rest.length + 1), by
          simpa using Nat.mod_lt (js 0) (Nat.succ_pos rest.length)⟩
      a :: selShuffle f ((x :: rest).erase a) (fun k => js (k + 1))

theorem selShuffle_perm (f : ℕ) (xs : List String) (js : ℕ → ℕ) :
    List.Perm (selShuffle f xs js) xs := by
  induction f generalizing xs js with
  | zero => simp [selShuffle]
  | succ f ih =>
    cases xs with
    | nil => simp [selShuffle]
    | cons x rest =>
      simp only [selShuffle]
      have ha : (x :: rest).get
          ⟨js 0 % (rest.length + 1), by
            simpa using Nat.mod_lt (js 0) (Nat.succ_pos rest.length)⟩ ∈ x :: rest :=
        List.get_mem _ _ _
      exact ((ih _ _).cons _).trans (List.perm_cons_erase ha).symm

theorem selShuffle_length (f : ℕ) (xs : List String) (js : ℕ → ℕ) :
    (selShuffle f xs js).length = xs.length :=
  (selShuffle_perm f xs js).length_eq

theorem selShuffle_mem {a : String} (f : ℕ) (xs : List String) (js : ℕ → ℕ)
    (h : a ∈ xs) : a ∈ selShuffle f xs js :=
  ((selShuffle_perm f xs js).mem_iff).2 h

/-! ### The Question data model (src/models/question.py)

`meta` is a Python dict; the engine populates at most the keys
`type`, `pattern` and `terms`, embedded here as dedicated fields
(`pattern := ""` and `terms := []` stand for absent keys). -/

structure Question where
  prompt : String
  options : List String
  answer_letter : Char
  explanation : String
  qtype : String
  pattern : String
  terms : List ℤ
deriving DecidableEq

/-- The validation performed by `Question.__post_init__`. -/
def questionValid (q : Question) : Prop :=
  q.options.length = 5 ∧ q.answer_letter ∈ (['A', 'B', 'C', 'D', 'E'] : List Char)

instance (q : Question) : Decidable (questionValid q) := by
  unfold questionValid; infer_instance

/-! ### Option assembly
(src/generators/numeric.py `_create_numeric_question` lines 232-240 and
src/generators/sequence.py `_create_sequence_question` lines 173-180;
the two blocks are textually identical up to the padding draw range). -/

/-- The loop `while len(options) < 5: options.append(str(random.randint(..)))`:
it appends exactly `5 - len` stringified draws (with no uniqueness check). -/
def padTo5 (opts : List String) (pads : ℕ → ℕ) : List String :=
  opts ++ (List.range (5 - opts.length)).map fun k => toString (pads k)

/-- `options = list(set(options))` (modelled by `List.dedup`, a
duplicate-free enumeration of the set), then padding, `options[:5]`,
and `random.shuffle(options)`. -/
def assembleOptions (correct : String) (distractors : List String)
    (pads js : ℕ → ℕ) : List String :=
  selShuffle ((padTo5 (correct :: distractors).dedup pads).take 5).length
    ((padTo5 (correct :: distractors).dedup pads).take 5) js

/-- `answer_letter = chr(ord('A') + options.index(correct_answer))`. -/
def answerLetterOf (opts : List String) (correct : String) : Char :=
  Char.ofNat (65 + opts.indexOf correct)

/-- `ord(letter) - ord('A')`, the index a letter names. -/
def letterIdx (c : Char) : ℕ := c.toNat - 65

theorem charOfNat_letter {idx : ℕ} (h : idx < 5) :
    (Char.ofNat (65 + idx)).toNat = 65 + idx := by
  interval_cases idx <;> decide

theorem assemble_aux (correct : String) (distractors : List String)
    (pads js : ℕ → ℕ) (h : distractors.length ≤ 4) :
    correct ∈ assembleOptions correct distractors pads js ∧
    (assembleOptions correct distractors pads js).length = 5 := by
  have hd_len : (correct :: distractors).dedup.length ≤ 5 :=
    le_trans (List.Sublist.length_le (List.dedup_sublist _)) (by simp; omega)
  have hpad_len : (padTo5 (correct :: distractors).dedup pads).length = 5 := by
    simp [padTo5]; omega
  have htake : (padTo5 (correct :: distractors).dedup pads).take 5
      = padTo5 (correct :: distractors).dedup pads :=
    List.take_of_length_le (le_of_eq hpad_len)
  have hmem : correct ∈ padTo5 (correct :: distractors).dedup pads := by
    apply List.mem_append_left
    exact List.mem_dedup.2 (List.mem_cons_self _ _)
  constructor
  · unfold assembleOptions
    rw [htake]
    exact selShuffle_mem _ _ _ hmem
  · unfold assembleOptions
    rw [htake, selShuffle_length, hpad_len]

theorem assemble_mem (correct : String) (distractors : List String)
    (pads js : ℕ → ℕ) (h : distractors.length ≤ 4) :
    correct ∈ assembleOptions correct distractors pads js :=
  (assemble_aux correct distractors pads js h).1

theorem assemble_length (correct : String) (distractors : List String)
    (pads js : ℕ → ℕ) (h : distractors.length ≤ 4) :
    (assembleOptions correct distractors pads js).length = 5 :=
  (assemble_aux correct distractors pads js h).2

theorem indexOf_getD {opts : List String} {correct : String}
    (h : correct ∈ opts) : opts.getD (opts.indexOf correct) "" = correct := by
  have hlt : opts.indexOf correct < opts.length := List.indexOf_lt_length.2 h
  rw [List.getD_eq_get? opts, List.get?_eq_get hlt]
  simp [List.indexOf_get hlt]

theorem assemble_answer (correct : String) (distractors : List String)
    (pads js : ℕ → ℕ) (h : distractors.length ≤ 4) :
    (assembleOptions correct distractors pads js).getD
      (letterIdx (answerLetterOf (assembleOptions correct distractors pads js) correct)) ""
      = correct := by
  have hmem := assemble_mem correct distractors pads js h
  have hlt : (assembleOptions correct distractors pads js).indexOf correct < 5 := by
    have := List.indexOf_lt_length.2 hmem
    rwa [assemble_length correct distractors pads js h] at this
  unfold answerLetterOf letterIdx
  rw [charOfNat_letter hlt]
  have h65 : 65 + List.indexOf correct (assembleOptions correct distractors pads js) - 65
      = List.indexOf correct (assembleOptions correct distractors pads js) := by omega
  rw [h65]
  exact indexOf_getD hmem

/-! ### NumericQuestionFactory (src/generators/numeric.py) -/

/-- `int(s)` on a digit string. -/
def strToInt (s : String) : ℤ := (digitsVal s.data : ℤ)

/-- `_generate_numeric_explanation` (static, type-keyed strings). -/
def numericExplanation (question_type : String) : String :=
  if question_type = "integer_arithmetic" then
    "Calculate the result directly using basic arithmetic operations."
  else if question_type = "decimal_arithmetic" then
    "Perform the operation with attention to decimal places."
  else if question_type = "fraction_arithmetic" then
    "Find common denominator and perform the operation, then simplify."
  else if question_type = "mixed_fractions" then
    "Convert to improper fractions, operate, then convert back if needed."
  else if question_type = "percentages" then
    "Convert percentage to decimal and multiply by the base number."
  else "Apply the appropriate mathematical operation."

/-- The integer-arithmetic distractors from `_create_numeric_question`:
`correct+1, correct-1, correct*10, correct//10` when the answer text is a
digit string, nothing otherwise. -/
def intDistractors (correct : String) : List String :=
  if pyIsDigit correct then
    [toString (strToInt correct + 1), toString (strToInt correct - 1),
     toString (strToInt correct * 10), toString (strToInt correct / 10)]
  else []

/-- The fraction / mixed-fraction distractors: noise values
`1/randint(2,9)`, `randint(2,9)/randint(10,20)`, `randint(1,5)`,
`randint(6,15)` built from five draws. -/
def fracDistractors (da db dc dd de : ℕ) : List String :=
  ["1/" ++ toString da,
   toString db ++ "/" ++ toString dc,
   toString dd,
   toString de]

/-- `_create_numeric_question` for the integer and fraction families:
option list `[correct] + distractors`, dedup, pad, truncate, shuffle,
then letter lookup.  (The decimal/percentage distractor rules involve
float formatting and are not needed by any claim.) -/
def mkNumericQuestion (prompt correct question_type : String)
    (distractors : List String) (pads js : ℕ → ℕ) : Question :=
  { prompt := prompt
    options := assembleOptions correct distractors pads js
    answer_letter := answerLetterOf (assembleOptions correct distractors pads js) correct
    explanation := numericExplanation question_type
    qtype := question_type
    pattern := ""
    terms := [] }

/-- Intermediate data of `_integer_arithmetic`: the chosen operation, the
displayed operands, the exact result and its string form. -/
structure IntArithGen where
  op : String
  a : ℕ
  b : ℕ
  result : ℕ
  prompt : String
  correct : String
deriving DecidableEq

/-- `_integer_arithmetic` (numeric.py lines 33-58).  `opD` is the
`random.choice` draw over `['+','-','*','/']`; `d1`, `d2` are the two
`randint` draws of the chosen branch (for division: `d1` the divisor
draw, `d2` the quotient draw). -/
def intArithData (opD d1 d2 : ℕ) : IntArithGen :=
  let op := (["+", "-", "*", "/"].getD (opD % 4) "+")
  if op = "+" then
    { op := op, a := d1, b := d2, result := d1 + d2
      prompt := toString d1 ++ " + " ++ toString d2 ++ " = ?"
      correct := toString (d1 + d2) }
  else if op = "-" then
    { op := op, a := max d1 d2, b := min d1 d2, result := max d1 d2 - min d1 d2
      prompt := toString (max d1 d2) ++ " - " ++ toString (min d1 d2) ++ " = ?"
      correct := toString (max d1 d2 - min d1 d2) }
  else if op = "*" then
    { op := op, a := d1, b := d2, result := d1 * d2
      prompt := toString d1 ++ " × " ++ toString d2 ++ " = ?"
      correct := toString (d1 * d2) }
  else
    { op := op, a := d1 * d2, b := d1, result := d2
      prompt := toString (d1 * d2) ++ " ÷ " ++ toString d1 ++ " = ?"
      correct := toString d2 }

/-- `_integer_arithmetic` followed by `_create_numeric_question`. -/
def intArithQuestion (opD d1 d2 : ℕ) (pads js : ℕ → ℕ) : Question :=
  mkNumericQuestion (intArithData opD d1 d2).prompt (intArithData opD d1 d2).correct
    "integer_arithmetic" (intDistractors (intArithData opD d1 d2).correct) pads js

/-- The result formatting shared by `_fraction_arithmetic` and
`_mixed_fractions` (numeric.py lines 112-122 and 152-161): mixed form
when the numerator reaches the denominator, whole number when the
remainder vanishes, plain `num/den` otherwise.  All results handled are
non-negative, where Lean's `ℤ` division/modulo agree with Python's. -/
def formatFrac (q : ℚ) : String :=
  if (q.den : ℤ) ≤ q.num then
    if q.num % (q.den : ℤ) = 0 then
      toString (q.num / (q.den : ℤ))
    else
      toString (q.num / (q.den : ℤ)) ++ " " ++ toString (q.num % (q.den : ℤ))
        ++ "/" ++ toString q.den
  else
    toString q.num ++ "/" ++ toString q.den

/-! Python `fractions.Fraction` always stores a normalised pair
(coprime numerator and positive denominator), exactly as Lean's `ℚ`
does.  Its arithmetic methods compute by cross-multiplication and
re-normalise; they are embedded below through `Rat.divInt` (which
normalises the same way), and `fracAdd_eq` etc. prove that the
embedding agrees with `ℚ` field arithmetic. -/

/-- `Fraction(n, d)` for natural `n`, `d`. -/
def fracOfND (n d : ℕ) : ℚ := Rat.divInt n d

/-- `Fraction.__add__`: `(a.num*b.den + b.num*a.den) / (a.den*b.den)`,
normalised. -/
def fracAdd (a b : ℚ) : ℚ :=
  Rat.divInt (a.num * b.den + b.num * a.den) (a.den * b.den)

/-- `Fraction.__sub__`. -/
def fracSub (a b : ℚ) : ℚ :=
  Rat.divInt (a.num * b.den - b.num * a.den) (a.den * b.den)

/-- `Fraction.__mul__`. -/
def fracMul (a b : ℚ) : ℚ :=
  Rat.divInt (a.num * b.num) (a.den * b.den)

/-- `Fraction.__truediv__`. -/
def fracDiv (a b : ℚ) : ℚ :=
  Rat.divInt (a.num * b.den) (a.den * b.num)

/-- `Fraction.__lt__`: comparison by cross-multiplication (the
denominators are positive). -/
def fracLt (a b : ℚ) : Prop := a.num * (b.den : ℤ) < b.num * (a.den : ℤ)

instance (a b : ℚ) : Decidable (fracLt a b) := by
  unfold fracLt; infer_instance

theorem fracAdd_eq (a b : ℚ) : fracAdd a b = a + b := by
  unfold fracAdd
  conv_rhs => rw [← Rat.num_divInt_den a, ← Rat.num_divInt_den b]
  rw [Rat.divInt_add_divInt _ _ (by exact_mod_cast a.den_nz) (by exact_mod_cast b.den_nz)]

theorem fracSub_eq (a b : ℚ) : fracSub a b = a - b := by
  unfold fracSub
  conv_rhs => rw [← Rat.num_divInt_den a, ← Rat.num_divInt_den b]
  rw [Rat.divInt_sub_divInt _ _ (by exact_mod_cast a.den_nz) (by exact_mod_cast b.den_nz)]

theorem fracMul_eq (a b : ℚ) : fracMul a b = a * b := by
  unfold fracMul
  conv_rhs => rw [← Rat.num_divInt_den a, ← Rat.num_divInt_den b]
  rw [Rat.divInt_mul_divInt _ _ (by exact_mod_cast a.den_nz) (by exact_mod_cast b.den_nz)]

theorem fracDiv_eq (a b : ℚ) (hb : b ≠ 0) : fracDiv a b = a / b := by
  unfold fracDiv
  have hbn : b.num ≠ 0 := Rat.num_ne_zero.2 hb
  rw [div_eq_mul_inv, Rat.inv_def']
  conv_rhs => rw [← Rat.num_divInt_den a]
  rw [Rat.divInt_mul_divInt _ _ (by exact_mod_cast a.den_nz) hbn]

theorem fracLt_iff (a b : ℚ) : fracLt a b ↔ a < b := (Rat.lt_def).symm

theorem fracOfND_eq (n d : ℕ) : fracOfND n d = (n : ℚ) / (d : ℚ) := by
  unfold fracOfND
  rw [Rat.divInt_eq_div]
  norm_num

/-- Intermediate data of `_fraction_arithmetic`: the exact `Fraction`
result, its formatted string, and the numerator/denominator pairs as
displayed in the prompt (after the swap for subtraction). -/
structure FracGen where
  op : String
  result : ℚ
  correct : String
  dispA : ℕ × ℕ
  dispB : ℕ × ℕ
deriving DecidableEq

/-- `_fraction_arithmetic` (numeric.py lines 84-123).  `opD` indexes
`['+','-','*','/']`; the operands are `an/ad` and `bn/bd`.  For
subtraction the operands are swapped (correctly, by one simultaneous
tuple assignment) whenever `a < b`. -/
def fracArithData (opD an ad bn bd : ℕ) : FracGen :=
  let op := (["+", "-", "*", "/"].getD (opD % 4) "+")
  let aF : ℚ := fracOfND an ad
  let bF : ℚ := fracOfND bn bd
  if op = "+" then
    { op := op, result := fracAdd aF bF, correct := formatFrac (fracAdd aF bF)
      dispA := (an, ad), dispB := (bn, bd) }
  else if op = "-" then
    if fracLt aF bF then
      { op := op, result := fracSub bF aF, correct := formatFrac (fracSub bF aF)
        dispA := (bn, bd), dispB := (an, ad) }
    else
      { op := op, result := fracSub aF bF, correct := formatFrac (fracSub aF bF)
        dispA := (an, ad), dispB := (bn, bd) }
  else if op = "*" then
    { op := op, result := fracMul aF bF, correct := formatFrac (fracMul aF bF)
      dispA := (an, ad), dispB := (bn, bd) }
  else
    { op := op, result := fracDiv aF bF, correct := formatFrac (fracDiv aF bF)
      dispA := (an, ad), dispB := (bn, bd) }

/-- `\frac{n}{d}` (braces written via escapes). -/
def latexFrac (n d : ℕ) : String :=
  "\\frac\x7b" ++ toString n ++ "\x7d\x7b" ++ toString d ++ "\x7d"

/-- The `_fraction_arithmetic` prompt. -/
def fracPromptStr (op : String) (a b : ℕ × ℕ) : String :=
  latexFrac a.1 a.2 ++ " " ++ op ++ " " ++ latexFrac b.1 b.2 ++ " = ?"

/-- `_fraction_arithmetic` followed by `_create_numeric_question`;
`da..de` are the distractor draws. -/
def fracArithQuestion (opD an ad bn bd da db dc dd de : ℕ)
    (pads js : ℕ → ℕ) : Question :=
  mkNumericQuestion
    (fracPromptStr (fracArithData opD an ad bn bd).op
      (fracArithData opD an ad bn bd).dispA (fracArithData opD an ad bn bd).dispB)
    (fracArithData opD an ad bn bd).correct
    "fraction_arithmetic" (fracDistractors da db dc dd de) pads js

/-- The value of a displayed mixed number `(whole, num, den)`,
`Fraction(whole*den + num, den)`. -/
def mixedVal (t : ℕ × ℕ × ℕ) : ℚ :=
  fracOfND (t.1 * t.2.2 + t.2.1) t.2.2

/-- Intermediate data of `_mixed_fractions`: the result, its string, and
the two displayed `(whole, num, den)` triples. -/
structure MixedGen where
  op : String
  result : ℚ
  correct : String
  dispA : ℕ × ℕ × ℕ
  dispB : ℕ × ℕ × ℕ
deriving DecidableEq

/-- `_mixed_fractions` (numeric.py lines 125-163).  Draw order follows
the source: `aw ∈ [1,5]`, `ad ∈ [2,8]`, `an ∈ [1,ad-1]`, then the same
for `b`, then the operation over `['+','-']`.

For subtraction with `a_total < b_total` the source swaps the totals
with one tuple assignment but then runs two *sequential* assignments
`a_whole,a_num,a_den = b_whole,b_num,b_den` and
`b_whole,b_num,b_den = a_whole,a_num,a_den`: the second reads the
already-overwritten `a_*`, so both displayed operands end up being the
old `b` operand.  This is embedded faithfully. -/
def mixedFractionsData (aw ad an bw bd bn opD : ℕ) : MixedGen :=
  let aTot : ℚ := fracOfND (aw * ad + an) ad
  let bTot : ℚ := fracOfND (bw * bd + bn) bd
  let op := (["+", "-"].getD (opD % 2) "+")
  if op = "+" then
    { op := op, result := fracAdd aTot bTot, correct := formatFrac (fracAdd aTot bTot)
      dispA := (aw, an, ad), dispB := (bw, bn, bd) }
  else
    if fracLt aTot bTot then
      { op := op, result := fracSub bTot aTot, correct := formatFrac (fracSub bTot aTot)
        dispA := (bw, bn, bd), dispB := (bw, bn, bd) }
    else
      { op := op, result := fracSub aTot bTot, correct := formatFrac (fracSub aTot bTot)
        dispA := (aw, an, ad), dispB := (bw, bn, bd) }

/-- The `_mixed_fractions` prompt, `{w}\frac{n}{d} op {w}\frac{n}{d} = ?`. -/
def mixedPromptStr (op : String) (a b : ℕ × ℕ × ℕ) : String :=
  toString a.1 ++ latexFrac a.2.1 a.2.2 ++ " " ++ op ++ " "
    ++ toString b.1 ++ latexFrac b.2.1 b.2.2 ++ " = ?"

/-- `_mixed_fractions` followed by `_create_numeric_question`. -/
def mixedFractionsQuestion (aw ad an bw bd bn opD da db dc dd de : ℕ)
    (pads js : ℕ → ℕ) : Question :=
  mkNumericQuestion
    (mixedPromptStr (mixedFractionsData aw ad an bw bd bn opD).op
      (mixedFractionsData aw ad an bw bd bn opD).dispA
      (mixedFractionsData aw ad an bw bd bn opD).dispB)
    (mixedFractionsData aw ad an bw bd bn opD).correct
    "mixed_fractions" (fracDistractors da db dc dd de) pads js

/-! ### SequenceQuestionFactory (src/generators/sequence.py) -/

/-- `_format_prompt`: only the first five terms are shown. -/
def formatSeqPrompt (terms : List ℤ) : String :=
  "What is the next number in this sequence?\n"
    ++ String.intercalate ", " ((terms.take 5).map toString) ++ ", ?"

/-- `terms[-1] + terms[-2]`. -/
def tailPairSum (ts : List ℤ) : ℤ :=
  ts.getD (ts.length - 1) 0 + ts.getD (ts.length - 2) 0

/-- One iteration `terms.append(terms[-1] + terms[-2])`. -/
def fibStepApp (ts : List ℤ) : List ℤ := ts ++ [tailPairSum ts]

/-- `_fibonacci_sequence` term construction: `[s1, s2]` extended four
times, giving six terms. -/
def fibTerms (s1 s2 : ℤ) : List ℤ :=
  fibStepApp (fibStepApp (fibStepApp (fibStepApp [s1, s2])))

/-- The `_fibonacci_sequence` answer string,
`str(terms[-1] + terms[-2])` computed on the six-term list. -/
def fibCorrect (s1 s2 : ℤ) : String := toString (tailPairSum (fibTerms s1 s2))

/-- The pattern-specific distractors of `_create_sequence_question`
(sequence.py lines 129-171). -/
def seqDistractors (pattern_type : String) (ts : List ℤ) : List String :=
  let last := ts.getD (ts.length - 1) 0
  if pattern_type = "arithmetic" then
    let step := ts.getD 1 0 - ts.getD 0 0
    [toString (last + step * 2), toString (last - step),
     toString (last + step + 1), toString (last + step * 3)]
  else if pattern_type = "geometric" then
    let r := if ts.getD 0 0 ≠ 0 then ts.getD 1 0 / ts.getD 0 0 else 2
    [toString (last * r * r), toString (ts.getD (ts.length - 2) 0),
     toString (last * r + 1), toString (last * r - 1)]
  else if pattern_type = "n² pattern" ∨ pattern_type = "n³ pattern" then
    [toString (ts.getD (ts.length - 2) 0), toString (last + 1),
     toString (last - 1), toString (last + 10)]
  else if pattern_type = "alternating" then
    let odd_step := ts.getD 2 0 - ts.getD 0 0
    let even_step := ts.getD 3 0 - ts.getD 1 0
    [toString (last + odd_step), toString (ts.getD (ts.length - 2) 0),
     toString (last + even_step + 1), toString (last + 5)]
  else if pattern_type = "fibonacci" then
    [toString (ts.getD (ts.length - 2) 0),
     toString (ts.getD (ts.length - 1) 0 + ts.getD (ts.length - 3) 0),
     toString (ts.getD (ts.length - 1) 0 + ts.getD (ts.length - 2) 0 + 1),
     toString (ts.getD (ts.length - 1) 0 * 2)]
  else []

/-- `_generate_sequence_explanation` (data-dependent text). -/
def seqExplanation (pattern_type : String) (ts : List ℤ) : String :=
  if pattern_type = "arithmetic" then
    let step := ts.getD 1 0 - ts.getD 0 0
    "This is an arithmetic sequence with common difference " ++ toString step
      ++ ". Each term increases by " ++ toString step ++ "."
  else if pattern_type = "geometric" then
    let r := if ts.getD 0 0 ≠ 0 then ts.getD 1 0 / ts.getD 0 0 else 2
    "This is a geometric sequence with common ratio " ++ toString r
      ++ ". Each term is multiplied by " ++ toString r ++ "."
  else if pattern_type = "n² pattern" then
    "This sequence follows the pattern n² (squares of consecutive integers)."
  else if pattern_type = "n³ pattern" then
    "This sequence follows the pattern n³ (cubes of consecutive integers)."
  else if pattern_type = "alternating" then
    let odd_step := ts.getD 2 0 - ts.getD 0 0
    let even_step := ts.getD 3 0 - ts.getD 1 0
    "This is an alternating sequence. Odd positions increase by "
      ++ toString odd_step ++ ", even positions by " ++ toString even_step ++ "."
  else if pattern_type = "fibonacci" then
    "This is a Fibonacci-style sequence where each term is the sum of the two preceding terms."
  else
    "Identify the pattern and apply it to find the next term."

/-- `_create_sequence_question` (sequence.py lines 124-189): the option
assembly is identical to the numeric one (padding draws in `[1,200]`). -/
def mkSequenceQuestion (prompt correct pattern_type : String) (ts : List ℤ)
    (pads js : ℕ → ℕ) : Question :=
  { prompt := prompt
    options := assembleOptions correct (seqDistractors pattern_type ts) pads js
    answer_letter :=
      answerLetterOf (assembleOptions correct (seqDistractors pattern_type ts) pads js) correct
    explanation := seqExplanation pattern_type ts
    qtype := "sequence"
    pattern := pattern_type
    terms := ts }

/-- `_fibonacci_sequence` followed by `_create_sequence_question`. -/
def fibQuestion (s1 s2 : ℤ) (pads js : ℕ → ℕ) : Question :=
  mkSequenceQuestion (formatSeqPrompt (fibTerms s1 s2)) (fibCorrect s1 s2)
    "fibonacci" (fibTerms s1 s2) pads js

/-- `terms = [start + i * step for i in range(6)]`. -/
def arithTerms (start step : ℤ) : List ℤ :=
  (List.range 6).map fun i : ℕ => start + (i : ℤ) * step

/-- `_arithmetic_sequence` parameter search (sequence.py lines 41-52):
each element of the draw stream `d` is one `(step, start)` parameter
draw; a zero step is redrawn, and a draw whose terms exceed magnitude
100 is discarded entirely and the generator recurses.  The fuel bounds
the recursion (the Python original recurses unboundedly). -/
def genArithSeq : ℕ → (ℕ → ℤ × ℤ) → Option (List ℤ)
  | 0, _ => none
  | f + 1, d =>
      if (d 0).1 = 0 then genArithSeq f (fun k => d (k + 1))
      else
        if (arithTerms (d 0).2 (d 0).1).any (fun t => 100 < t.natAbs) then
          genArithSeq f (fun k => d (k + 1))
        else some (arithTerms (d 0).2 (d 0).1)

/-- `terms = [start * ratio ** i for i in range(6)]`. -/
def geomTerms (start r : ℤ) : List ℤ :=
  (List.range 6).map fun i => start * r ^ i

/-- `_geometric_sequence` parameter search (sequence.py lines 58-66):
each stream element is one `(ratio, start)` draw; a draw whose sixth
term exceeds 1000 is discarded and regenerated. -/
def genGeomSeq : ℕ → (ℕ → ℤ × ℤ) → Option (List ℤ)
  | 0, _ => none
  | f + 1, d =>
      if 1000 < (geomTerms (d 0).2 (d 0).1).getD 5 0 then
        genGeomSeq f (fun k => d (k + 1))
      else some (geomTerms (d 0).2 (d 0).1)

/-! ### Session-level option shuffle (src/modes/base.py lines 56-63) -/

/-- The shuffle applied by `BaseMode.initialize` when `shuffle_options`
is set: record the correct option's value, shuffle the options, then
point `answer_letter` at the recorded value's new index. -/
def sessionShuffle (q : Question) (js : ℕ → ℕ) : Question :=
  let original := q.options.getD (letterIdx q.answer_letter) ""
  let shuffled := selShuffle q.options.length q.options js
  { q with options := shuffled
           answer_letter := Char.ofNat (65 + shuffled.indexOf original) }

/-! ### Error tagger (src/app.py `_generate_error_tag`, lines 173-207) -/

/-- The body of the `try:` block of `_generate_error_tag`: every
exception inside it (bad `ord`, out-of-range index, failed `float`
parse) degrades to `"other"`.  Float comparisons are modelled exactly
on `ℚ`. -/
def tagInner (q : Question) (chosen correct_value : String) : String :=
  match pyOrd? chosen with
  | none => "other"
  | some oc =>
    match pyListIndex? q.options ((oc : ℤ) - 65) with
    | none => "other"
    | some chosen_value =>
      if q.qtype = "integer_arithmetic" ∨ q.qtype = "decimal_arithmetic" then
        match pyFloat? correct_value, pyFloat? chosen_value with
        | some cn, some ch =>
          if |cn - ch| = 1 then "off-by-one"
          else if |cn - ch * 10| < 1 / 100 ∨ |cn - ch / 10| < 1 / 100 then
            "decimal-place"
          else "other"
        | _, _ => "other"
      else if q.qtype = "fraction_arithmetic" ∨ q.qtype = "mixed_fractions" then
        "fraction-reduction"
      else if q.qtype = "sequence" then
        if q.pattern = "geometric" then "wrong-ratio"
        else if q.pattern = "alternating" then "interleave-swap"
        else if q.pattern = "fibonacci" then "fib-near"
        else "other"
      else "other"

/-- `_generate_error_tag`.  The lookup of the correct option on the
first line sits *outside* the `try:`; if it raised, the exception would
propagate (`none`).  For every validated `Question` it succeeds. -/
def generateErrorTag (q : Question) (chosen : String) : Option String :=
  match pyListIndex? q.options ((q.answer_letter.toNat : ℤ) - 65) with
  | none => none
  | some correct_value => some (tagInner q chosen correct_value)

/-! ### Seeded determinism (src/generators/base.py lines 15-17)

`QuestionGenerator.__init__` calls `random.seed(seed)` on the module
random stream, overwriting whatever ambient state it held; every later
choice draws from that stream.  The stream is modelled by an abstract
deterministic state machine: `rnext` is one draw, `seedFn s` the state
`random.seed(s)` installs. -/

/-- One pseudo-random draw: next state and an output value (a concrete
deterministic transition standing for the Mersenne-Twister step). -/
def rnext (st : ℕ) : ℕ × ℕ :=
  ((st * 1103515245 + 12345) % 2147483648, st % 2147483648)

/-- `random.seed(s)`: the resulting stream state is a pure function of
the seed alone. -/
def seedFn (s : ℤ) : ℕ := s.natAbs

/-- `QuestionGenerator.__init__(seed)` with an explicit seed: the
ambient global state `g` is overwritten by `seedFn seed`. -/
def constructGen (g : ℕ) (seed : ℤ) : ℕ := seedFn seed

/-- `generate_question` repeated `n` times, recording only the
`random.choice` selection among the sub-generator labels; `consume`
abstracts the draws the chosen sub-generator itself makes before the
next question (any per-label deterministic consumption). -/
def genTypeLabels (labels : List String) (consume : String → ℕ → ℕ) :
    ℕ → ℕ → List String
  | 0, _ => []
  | n + 1, st =>
      let lab := labels.getD ((rnext st).2 % labels.length) ""
      lab :: genTypeLabels labels consume n (consume lab (rnext st).1)

/-- Construct a factory with an explicit seed in ambient state `g`,
then generate `n` questions, keeping the type labels. -/
def runFactory (labels : List String) (consume : String → ℕ → ℕ)
    (g : ℕ) (seed : ℤ) (n : ℕ) : List String :=
  genTypeLabels labels consume n (constructGen g seed)

/-- The five numeric sub-generator labels, in table order. -/
def numericTypeNames : List String :=
  ["integer_arithmetic", "decimal_arithmetic", "fraction_arithmetic",
   "mixed_fractions", "percentages"]

/-- The five sequence pattern labels, in table order. -/
def sequencePatternNames : List String :=
  ["arithmetic", "geometric", "polynomial", "alternating", "fibonacci"]

/-! ### Concrete draw streams used by the closed theorems below -/

/-- A draw stream that always yields 0 (under `selShuffle` this is the
identity permutation). -/
def zeroStream : ℕ → ℕ := fun _ => 0

/-- A padding stream that always yields 3. -/
def padThree : ℕ → ℕ := fun _ => 3

/-- The constant arithmetic-sequence parameter draw `(step 3, start 5)`. -/
def drawStep3Start5 : ℕ → ℤ × ℤ := fun _ => (3, 5)

/-- The constant geometric-sequence parameter draw `(ratio 2, start 1)`. -/
def drawRatio2Start1 : ℕ → ℤ × ℤ := fun _ => (2, 1)

/-! ### Claims -/

/-- **C1.** For every question of the Fibonacci sub-generator the claim
asserts six terms obeying the recurrence, a prompt showing the first
five, and a correct answer equal to the sixth term — with seeds (2,3):
terms `[2,3,5,8,13,21]`, answer `"21"`.  The code is wrong: with seeds
(2,3) the six generated terms are indeed `[2,3,5,8,13,21]` and the
prompt shows `2, 3, 5, 8, 13, ?`, but `_fibonacci_sequence` sets the
answer to `str(terms[-1] + terms[-2]) = "34"` — the *seventh* term —
so the option named by `answer_letter` is `"34"`, not `"21"`. -/
theorem fibonacci_answers_seventh_term :
    fibTerms 2 3 = [2, 3, 5, 8, 13, 21] ∧
    (fibQuestion 2 3 zeroStream zeroStream).prompt
      = "What is the next number in this sequence?\n2, 3, 5, 8, 13, ?" ∧
    fibCorrect 2 3 = "34" ∧
    (fibQuestion 2 3 zeroStream zeroStream).options.getD
      (letterIdx (fibQuestion 2 3 zeroStream zeroStream).answer_letter) "" = "34" ∧
    toString ((fibTerms 2 3).getD 5 0) = "21" ∧
    ("34" : String) ≠ "21" := by
  refine ⟨by decide, by decide, by decide, by decide, by decide, by decide⟩

/-- **C2.** The claim asserts that for every sub-type (including
mixed-fraction subtraction) the option named by `answer_letter` equals
the mathematically correct result of the problem stated in the prompt.
The code is wrong for mixed-fraction subtraction with `a_total <
b_total`: with first operand 1 1/2 and second operand 2 1/3 the botched
sequential swap makes both displayed operands `2 1/3`, so the prompt
reads `2 1/3 - 2 1/3 = ?` (whose mathematical result is 0, formatted
"0/1"), while the recorded answer option is `"5/6"`. -/
theorem mixed_fractions_swap_bug :
    (mixedFractionsData 1 2 1 2 3 1 1).op = "-" ∧
    (mixedFractionsData 1 2 1 2 3 1 1).dispA = (2, 1, 3) ∧
    (mixedFractionsData 1 2 1 2 3 1 1).dispB = (2, 1, 3) ∧
    (mixedFractionsQuestion 1 2 1 2 3 1 1 2 2 10 1 6 zeroStream zeroStream).prompt
      = mixedPromptStr "-" (2, 1, 3) (2, 1, 3) ∧
    fracSub (mixedVal (2, 1, 3)) (mixedVal (2, 1, 3)) = 0 ∧
    (mixedFractionsQuestion 1 2 1 2 3 1 1 2 2 10 1 6 zeroStream zeroStream).options.getD
      (letterIdx (mixedFractionsQuestion 1 2 1 2 3 1 1 2 2 10 1 6
        zeroStream zeroStream).answer_letter) "" = "5/6" ∧
    formatFrac (fracSub (mixedVal (2, 1, 3)) (mixedVal (2, 1, 3))) = "0/1" ∧
    ("5/6" : String) ≠ "0/1" ∧ ("5/6" : String) ≠ "0" := by
  refine ⟨by decide, by decide, by decide, by decide, by decide, by decide,
    by decide, by decide, by decide⟩

/-- **C3.** The claim asserts that, regardless of the random draws, the
final options list always has five pairwise-distinct strings.  The code
is wrong: the padding loop appends `str(randint(...))` without checking
uniqueness (despite the comment "Ensure we have 5 unique options").
Concretely, a fraction question 7/2 + 7/2 (answer "7") with distractor
draws producing `1/2`, `2/10`, `3`, `7` collides the distractor `7`
with the answer, so one padding draw is needed; a padding draw of 3
duplicates the distractor `3`, yielding options with a repeat. -/
theorem option_padding_duplicate :
    (fracArithQuestion 0 7 2 7 2 2 2 10 3 7 padThree zeroStream).options
      = ["1/2", "2/10", "3", "7", "3"] ∧
    (fracArithQuestion 0 7 2 7 2 2 2 10 3 7 padThree zeroStream).options.length = 5 ∧
    ¬ (fracArithQuestion 0 7 2 7 2 2 2 10 3 7 padThree zeroStream).options.Nodup := by
  refine ⟨by decide, by decide, by decide⟩

/-! ### C4: error tagger robustness -/

theorem valid_correct_lookup (q : Question) (h : questionValid q) :
    ∃ v, pyListIndex? q.options ((q.answer_letter.toNat : ℤ) - 65) = some v := by
  obtain ⟨h5, hmem⟩ := h
  have hk : ∃ k : ℕ, (q.answer_letter.toNat : ℤ) - 65 = (k : ℤ) ∧ k < 5 := by
    simp only [List.mem_cons, List.not_mem_nil, or_false] at hmem
    rcases hmem with h | h | h | h | h
    · rw [h]; exact ⟨0, by decide, by decide⟩
    · rw [h]; exact ⟨1, by decide, by decide⟩
    · rw [h]; exact ⟨2, by decide, by decide⟩
    · rw [h]; exact ⟨3, by decide, by decide⟩
    · rw [h]; exact ⟨4, by decide, by decide⟩
  obtain ⟨k, hki, hk5⟩ := hk
  refine ⟨q.options.get ⟨k, by omega⟩, ?_⟩
  unfold pyListIndex?
  rw [hki, if_pos (by positivity), Int.toNat_natCast]
  exact List.get?_eq_get (by omega)

theorem pyListIndex?_mem {xs : List String} {i : ℤ} {v : String}
    (h : pyListIndex? xs i = some v) : v ∈ xs := by
  unfold pyListIndex? at h
  split at h
  · exact List.get?_mem h
  · split at h
    · exact List.get?_mem h
    · exact absurd h (by simp)

theorem tagInner_other_of_big (q : Question) (chosen : String) (c : Char)
    (cv : String) (h5 : q.options.length = 5) (hc : chosen.data = [c])
    (hbig : 70 ≤ c.toNat) : tagInner q chosen cv = "other" := by
  have h1 : pyOrd? chosen = some c.toNat := by unfold pyOrd?; rw [hc]
  have h2 : pyListIndex? q.options ((c.toNat : ℤ) - 65) = none := by
    unfold pyListIndex?
    rw [if_pos (by omega)]
    apply List.get?_eq_none.2
    rw [h5]; omega
  simp only [tagInner, h1, h2]

/-- **C4 (amended).** The claim asserts the tagger never raises and
returns `"other"` both for chosen letters outside A–E and for questions
with non-numeric option text.  The first two parts hold; the third only
holds for the integer/decimal branch, because fraction-type questions
unconditionally return `"fraction-reduction"` without parsing any
option (see the counterexample).  Amended: for every valid question the
tagger returns a tag (never raises); a single-character chosen string
at code point ≥ 70 (so every letter F–Z, a–z) yields `"other"`; a
chosen string that is not one character yields `"other"`; and an
integer/decimal-type question all of whose options fail float parsing
yields `"other"`. -/
theorem error_tagger_robust :
    (∀ q chosen, questionValid q → ∃ t, generateErrorTag q chosen = some t) ∧
    (∀ q chosen c, questionValid q → chosen.data = [c] → 70 ≤ c.toNat →
      generateErrorTag q chosen = some "other") ∧
    (∀ q chosen, questionValid q → chosen.data.length ≠ 1 →
      generateErrorTag q chosen = some "other") ∧
    (∀ q chosen, questionValid q →
      (q.qtype = "integer_arithmetic" ∨ q.qtype = "decimal_arithmetic") →
      (∀ s ∈ q.options, pyFloat? s = none) →
      generateErrorTag q chosen = some "other") := by
  refine ⟨?_, ?_, ?_, ?_⟩
  · intro q chosen h
    obtain ⟨v, hv⟩ := valid_correct_lookup q h
    exact ⟨tagInner q chosen v, by unfold generateErrorTag; rw [hv]⟩
  · intro q chosen c h hc hbig
    obtain ⟨v, hv⟩ := valid_correct_lookup q h
    simp only [generateErrorTag, hv, tagInner_other_of_big q chosen c v h.1 hc hbig]
  · intro q chosen h hlen
    obtain ⟨v, hv⟩ := valid_correct_lookup q h
    have h1 : pyOrd? chosen = none := by
      unfold pyOrd?
      cases hd : chosen.data with
      | nil => rfl
      | cons c rest =>
        cases rest with
        | nil => exact absurd (by rw [hd]; rfl) hlen
        | cons d rest2 => rfl
    simp only [generateErrorTag, tagInner, hv, h1]
  · intro q chosen htype hvalid hnone
    obtain ⟨v, hv⟩ := valid_correct_lookup q htype
    have hvmem : v ∈ q.options := pyListIndex?_mem hv
    cases h1 : pyOrd? chosen with
    | none => simp only [generateErrorTag, tagInner, hv, h1]
    | some oc =>
      cases h2 : pyListIndex? q.options ((oc : ℤ) - 65) with
      | none => simp only [generateErrorTag, tagInner, hv, h1, h2]
      | some cv =>
        have hcvmem : cv ∈ q.options := pyListIndex?_mem h2
        simp only [generateErrorTag, tagInner, hv, h1, h2]
        rw [if_pos hvalid, hnone v hvmem, hnone cv hcvmem]

/-- A handcrafted valid fraction-arithmetic question all of whose
options are non-numeric text. -/
def fracTextQuestion : Question :=
  { prompt := "p", options := ["1/2", "2/3", "3/4", "4/5", "5/6"]
    answer_letter := 'A', explanation := "e"
    qtype := "fraction_arithmetic", pattern := "", terms := [] }

/-- **C4, counterexample.** A fraction-type question whose five options
are all non-numeric (none of them parses as a float), with chosen
letter "B": `_generate_error_tag` returns `"fraction-reduction"`, not
`"other"` as the claim requires for questions with non-numeric option
text. -/
theorem error_tagger_fraction_not_other :
    questionValid fracTextQuestion ∧
    pyFloat? "1/2" = none ∧ pyFloat? "2/3" = none ∧ pyFloat? "3/4" = none ∧
    pyFloat? "4/5" = none ∧ pyFloat? "5/6" = none ∧
    generateErrorTag fracTextQuestion "B" = some "fraction-reduction" ∧
    (some "fraction-reduction" : Option String) ≠ some "other" := by
  refine ⟨by decide, by decide, by decide, by decide, by decide, by decide,
    by decide, by decide⟩

/-- A handcrafted valid integer-arithmetic question all of whose
options are non-numeric text. -/
def intTextQuestion : Question :=
  { prompt := "p", options := ["a", "b", "c", "d", "e"]
    answer_letter := 'C', explanation := "e"
    qtype := "integer_arithmetic", pattern := "", terms := [] }

/-- Witness for C4's amended theorem at concrete inputs: chosen "Z"
(outside A–E) on the fraction question gives `"other"`, and any letter
on an integer question with unparseable options gives `"other"`. -/
theorem error_tagger_robust_witness :
    generateErrorTag fracTextQuestion "Z" = some "other" ∧
    generateErrorTag intTextQuestion "B" = some "other" :=
  ⟨error_tagger_robust.2.1 fracTextQuestion "Z" 'Z' (by decide) (by decide) (by decide),
   error_tagger_robust.2.2.2 intTextQuestion "B" (by decide) (by decide)
     (by decide)⟩

/-! ### C5: integer arithmetic correctness -/

theorem intDistractors_len (c : String) : (intDistractors c).length ≤ 4 := by
  unfold intDistractors
  split <;> simp

theorem mkNumericQuestion_options (prompt correct qt : String) (ds : List String)
    (pads js : ℕ → ℕ) :
    (mkNumericQuestion prompt correct qt ds pads js).options
      = assembleOptions correct ds pads js := rfl

theorem mkNumericQuestion_letter (prompt correct qt : String) (ds : List String)
    (pads js : ℕ → ℕ) :
    (mkNumericQuestion prompt correct qt ds pads js).answer_letter
      = answerLetterOf (assembleOptions correct ds pads js) correct := rfl

theorem mkNumericQuestion_answer (prompt correct qt : String) (ds : List String)
    (pads js : ℕ → ℕ) (h : ds.length ≤ 4) :
    (mkNumericQuestion prompt correct qt ds pads js).options.getD
      (letterIdx (mkNumericQuestion prompt correct qt ds pads js).answer_letter) ""
      = correct := by
  rw [mkNumericQuestion_options, mkNumericQuestion_letter]
  exact assemble_answer correct ds pads js h

/-- **C5.** For every draw of `_integer_arithmetic`: addition keeps the
drawn operands (in `[1,100]` when the draws are) and answers their
exact sum; subtraction reorders to larger-minus-smaller, so the result
is non-negative; division presents `divisor × quotient` as the dividend
(with divisor and quotient in `[2,20]` when the draws are), so it is
exact, and answers the quotient; multiplication answers the exact
product; and in every case the option named by `answer_letter` is the
`correct` string, the exact result formatted as an integer string. -/
theorem integer_arithmetic_correct (opD d1 d2 : ℕ) (pads js : ℕ → ℕ) :
    ((intArithData opD d1 d2).op = "+" →
      (intArithData opD d1 d2).a = d1 ∧ (intArithData opD d1 d2).b = d2 ∧
      (1 ≤ d1 → d1 ≤ 100 → 1 ≤ d2 → d2 ≤ 100 →
        1 ≤ (intArithData opD d1 d2).a ∧ (intArithData opD d1 d2).a ≤ 100 ∧
        1 ≤ (intArithData opD d1 d2).b ∧ (intArithData opD d1 d2).b ≤ 100) ∧
      (intArithData opD d1 d2).result = d1 + d2 ∧
      (intArithData opD d1 d2).correct = toString (d1 + d2)) ∧
    ((intArithData opD d1 d2).op = "-" →
      (intArithData opD d1 d2).a = max d1 d2 ∧
      (intArithData opD d1 d2).b = min d1 d2 ∧
      (intArithData opD d1 d2).b ≤ (intArithData opD d1 d2).a ∧
      (intArithData opD d1 d2).result = max d1 d2 - min d1 d2 ∧
      (intArithData opD d1 d2).correct = toString (max d1 d2 - min d1 d2)) ∧
    ((intArithData opD d1 d2).op = "*" →
      (intArithData opD d1 d2).result = d1 * d2 ∧
      (intArithData opD d1 d2).correct = toString (d1 * d2)) ∧
    ((intArithData opD d1 d2).op = "/" →
      (intArithData opD d1 d2).a = d1 * d2 ∧
      (intArithData opD d1 d2).b = d1 ∧
      (intArithData opD d1 d2).result = d2 ∧
      (intArithData opD d1 d2).a
        = (intArithData opD d1 d2).b * (intArithData opD d1 d2).result ∧
      (2 ≤ d1 → d1 ≤ 20 → 2 ≤ d2 → d2 ≤ 20 →
        2 ≤ (intArithData opD d1 d2).b ∧ (intArithData opD d1 d2).b ≤ 20 ∧
        2 ≤ (intArithData opD d1 d2).result ∧ (intArithData opD d1 d2).result ≤ 20) ∧
      (intArithData opD d1 d2).correct = toString d2) ∧
    (intArithQuestion opD d1 d2 pads js).options.getD
      (letterIdx (intArithQuestion opD d1 d2 pads js).answer_letter) ""
      = (intArithData opD d1 d2).correct := by
  have hfinal : (intArithQuestion opD d1 d2 pads js).options.getD
      (letterIdx (intArithQuestion opD d1 d2 pads js).answer_letter) ""
      = (intArithData opD d1 d2).correct :=
    mkNumericQuestion_answer _ _ _ _ pads js (intDistractors_len _)
  have hm : opD % 4 = 0 ∨ opD % 4 = 1 ∨ opD % 4 = 2 ∨ opD % 4 = 3 := by omega
  rcases hm with h | h | h | h <;>
    refine ⟨?_, ?_, ?_, ?_, hfinal⟩ <;>
    simp [intArithData, h] <;>
    omega

/-- Witness for C5: `37 + 45` answers `"82"` (also as the option named
by `answer_letter`), and division with divisor 6 and quotient 7 shows
dividend 42 and answers `"7"`. -/
theorem integer_arithmetic_correct_witness :
    (intArithData 0 37 45).correct = "82" ∧
    (intArithData 3 6 7).a = 6 * 7 ∧
    (intArithData 3 6 7).correct = "7" ∧
    (intArithQuestion 0 37 45 zeroStream zeroStream).options.getD
      (letterIdx (intArithQuestion 0 37 45 zeroStream zeroStream).answer_letter) ""
      = "82" := by
  have h := integer_arithmetic_correct 0 37 45 zeroStream zeroStream
  have hdiv := integer_arithmetic_correct 3 6 7 zeroStream zeroStream
  have hplus := h.1 (by decide)
  have hdivApp := hdiv.2.2.2.1 (by decide)
  refine ⟨hplus.2.2.2.2.trans (by decide), hdivApp.1, hdivApp.2.2.2.2.2.trans (by decide),
    (h.2.2.2.2).trans (hplus.2.2.2.2.trans (by decide))⟩

/-! ### C6: fraction formatting -/

theorem fracOfND_pos {n d : ℕ} (hn : 1 ≤ n) (hd : 1 ≤ d) : 0 < fracOfND n d := by
  rw [fracOfND_eq]
  exact div_pos (by exact_mod_cast hn) (by exact_mod_cast hd)

/-- **C6.** For every question of the `fraction_arithmetic` and
`mixed_fractions` sub-generators, the correct-answer string is the
exact rational result (for subtraction: the absolute difference, thanks
to the swap) passed through `formatFrac`, and `formatFrac` renders a
non-negative rational in fully reduced form: `"num/den"` with coprime
parts when `num < den`, the whole number alone when the denominator
divides evenly, and `"whole rem/den"` otherwise; in particular
`1/4 + 1/4` gives `"1/2"`, `3/2 + 3/2` gives `"3"`, and `5/4 + 1/4`
gives `"1 1/2"`. -/
theorem fraction_answer_reduced :
    (∀ opD an ad bn bd : ℕ,
      (fracArithData opD an ad bn bd).correct
        = formatFrac (fracArithData opD an ad bn bd).result ∧
      ((fracArithData opD an ad bn bd).op = "+" →
        (fracArithData opD an ad bn bd).result = fracOfND an ad + fracOfND bn bd) ∧
      ((fracArithData opD an ad bn bd).op = "-" →
        (fracArithData opD an ad bn bd).result
          = |fracOfND an ad - fracOfND bn bd|) ∧
      ((fracArithData opD an ad bn bd).op = "*" →
        (fracArithData opD an ad bn bd).result = fracOfND an ad * fracOfND bn bd) ∧
      ((fracArithData opD an ad bn bd).op = "/" → 1 ≤ bn → 1 ≤ bd →
        (fracArithData opD an ad bn bd).result = fracOfND an ad / fracOfND bn bd)) ∧
    (∀ aw ad an bw bd bn opD : ℕ,
      (mixedFractionsData aw ad an bw bd bn opD).correct
        = formatFrac (mixedFractionsData aw ad an bw bd bn opD).result ∧
      ((mixedFractionsData aw ad an bw bd bn opD).op = "+" →
        (mixedFractionsData aw ad an bw bd bn opD).result
          = fracOfND (aw * ad + an) ad + fracOfND (bw * bd + bn) bd) ∧
      ((mixedFractionsData aw ad an bw bd bn opD).op = "-" →
        (mixedFractionsData aw ad an bw bd bn opD).result
          = |fracOfND (aw * ad + an) ad - fracOfND (bw * bd + bn) bd|)) ∧
    (∀ q : ℚ,
      (q.num < (q.den : ℤ) →
        formatFrac q = toString q.num ++ "/" ++ toString q.den ∧
        q.num.natAbs.gcd q.den = 1) ∧
      ((q.den : ℤ) ≤ q.num → (q.den : ℤ) ∣ q.num →
        formatFrac q = toString (q.num / (q.den : ℤ))) ∧
      ((q.den : ℤ) ≤ q.num → ¬ (q.den : ℤ) ∣ q.num →
        formatFrac q = toString (q.num / (q.den : ℤ)) ++ " "
          ++ toString (q.num % (q.den : ℤ)) ++ "/" ++ toString q.den)) ∧
    (fracAdd (fracOfND 1 4) (fracOfND 1 4) = (1 : ℚ)/4 + 1/4 ∧
      formatFrac (fracAdd (fracOfND 1 4) (fracOfND 1 4)) = "1/2") ∧
    (fracAdd (fracOfND 3 2) (fracOfND 3 2) = (3 : ℚ)/2 + 3/2 ∧
      formatFrac (fracAdd (fracOfND 3 2) (fracOfND 3 2)) = "3") ∧
    (fracAdd (fracOfND 5 4) (fracOfND 1 4) = (5 : ℚ)/4 + 1/4 ∧
      formatFrac (fracAdd (fracOfND 5 4) (fracOfND 1 4)) = "1 1/2") := by
  refine ⟨?_, ?_, ?_, ?_, ?_, ?_⟩
  · intro opD an ad bn bd
    have hm : opD % 4 = 0 ∨ opD % 4 = 1 ∨ opD % 4 = 2 ∨ opD % 4 = 3 := by omega
    rcases hm with h | h | h | h
    · simp [fracArithData, h, fracAdd_eq]
    · by_cases hlt : fracLt (fracOfND an ad) (fracOfND bn bd)
      · have hlt' := (fracLt_iff _ _).1 hlt
        refine ⟨?_, ?_, ?_, ?_, ?_⟩ <;> simp [fracArithData, h, hlt, fracSub_eq]
        rw [abs_sub_comm]
        exact (abs_of_pos (sub_pos.2 hlt')).symm
      · have hge : fracOfND bn bd ≤ fracOfND an ad :=
          not_lt.1 (fun hh => hlt ((fracLt_iff _ _).2 hh))
        refine ⟨?_, ?_, ?_, ?_, ?_⟩ <;> simp [fracArithData, h, hlt, fracSub_eq]
        exact (abs_of_nonneg (sub_nonneg.2 hge)).symm
    · simp [fracArithData, h, fracMul_eq]
    · refine ⟨?_, ?_, ?_, ?_, ?_⟩ <;> simp [fracArithData, h]
      intro hbn hbd
      exact fracDiv_eq _ _ (ne_of_gt (fracOfND_pos hbn hbd))
  · intro aw ad an bw bd bn opD
    have hm : opD % 2 = 0 ∨ opD % 2 = 1 := by omega
    rcases hm with h | h
    · simp [mixedFractionsData, h, fracAdd_eq]
    · by_cases hlt : fracLt (fracOfND (aw * ad + an) ad) (fracOfND (bw * bd + bn) bd)
      · have hlt' := (fracLt_iff _ _).1 hlt
        refine ⟨?_, ?_, ?_⟩ <;> simp [mixedFractionsData, h, hlt, fracSub_eq]
        rw [abs_sub_comm]
        exact (abs_of_pos (sub_pos.2 hlt')).symm
      · have hge := not_lt.1 (fun hh => hlt ((fracLt_iff _ _).2 hh))
        refine ⟨?_, ?_, ?_⟩ <;> simp [mixedFractionsData, h, hlt, fracSub_eq]
        exact (abs_of_nonneg (sub_nonneg.2 hge)).symm
  · intro q
    refine ⟨?_, ?_, ?_⟩
    · intro hlt
      unfold formatFrac
      rw [if_neg (by omega)]
      exact ⟨rfl, q.reduced⟩
    · intro hle hdvd
      unfold formatFrac
      rw [if_pos hle, if_pos (Int.emod_eq_zero_of_dvd hdvd)]
    · intro hle hdvd
      unfold formatFrac
      rw [if_pos hle, if_neg (fun hz => hdvd (Int.dvd_of_emod_eq_zero hz))]
  · exact ⟨by simp only [fracAdd_eq, fracOfND_eq]; norm_num, by decide⟩
  · exact ⟨by simp only [fracAdd_eq, fracOfND_eq]; norm_num, by decide⟩
  · exact ⟨by simp only [fracAdd_eq, fracOfND_eq]; norm_num, by decide⟩

/-- Witness for C6 at concrete inputs: the `1/4 + 1/4` generator run
formats its own exact result, and `formatFrac` renders `3/2` in mixed
form. -/
theorem fraction_answer_reduced_witness :
    (fracArithData 0 1 4 1 4).correct = formatFrac (fracArithData 0 1 4 1 4).result ∧
    formatFrac (fracOfND 3 2) = "1 1/2" := by
  have h := fraction_answer_reduced
  refine ⟨(h.1 0 1 4 1 4).1, ?_⟩
  have h3 := (h.2.2.1 (fracOfND 3 2)).2.2 (by decide) (by decide)
  exact h3.trans (by decide)

/-! ### C7: sequence regeneration bounds -/

theorem genArithSeq_sound (fuel : ℕ) (d : ℕ → ℤ × ℤ)
    (hr : ∀ k, -9 ≤ (d k).1 ∧ (d k).1 ≤ 9 ∧ 1 ≤ (d k).2 ∧ (d k).2 ≤ 20)
    (ts : List ℤ) (h : genArithSeq fuel d = some ts) :
    ts.length = 6 ∧ (∀ t ∈ ts, t.natAbs ≤ 100) ∧
    ∃ start step : ℤ, step ≠ 0 ∧ -9 ≤ step ∧ step ≤ 9 ∧ 1 ≤ start ∧ start ≤ 20 ∧
      ts = arithTerms start step := by
  induction fuel generalizing d with
  | zero => simp [genArithSeq] at h
  | succ f ih =>
    unfold genArithSeq at h
    split at h
    · exact ih _ (fun k => hr (k + 1)) h
    · rename_i hstep
      split at h
      · exact ih _ (fun k => hr (k + 1)) h
      · rename_i hbound
        obtain rfl : arithTerms (d 0).2 (d 0).1 = ts := Option.some.inj h
        refine ⟨by simp only [arithTerms, List.length_map, List.length_range], ?_,
          (d 0).2, (d 0).1, hstep,
          (hr 0).1, (hr 0).2.1, (hr 0).2.2.1, (hr 0).2.2.2, rfl⟩
        intro t ht
        by_contra hgt
        apply hbound
        refine List.any_eq_true.2 ⟨t, ht, ?_⟩
        simp only [decide_eq_true_eq]
        omega

theorem genGeomSeq_sound (fuel : ℕ) (d : ℕ → ℤ × ℤ)
    (hr : ∀ k, 2 ≤ (d k).1 ∧ (d k).1 ≤ 5 ∧ 1 ≤ (d k).2 ∧ (d k).2 ≤ 5)
    (ts : List ℤ) (h : genGeomSeq fuel d = some ts) :
    ts.length = 6 ∧ ts.getD 5 0 ≤ 1000 ∧
    ∃ start r : ℤ, 2 ≤ r ∧ r ≤ 5 ∧ 1 ≤ start ∧ start ≤ 5 ∧
      ts = geomTerms start r := by
  induction fuel generalizing d with
  | zero => simp [genGeomSeq] at h
  | succ f ih =>
    unfold genGeomSeq at h
    split at h
    · exact ih _ (fun k => hr (k + 1)) h
    · rename_i hbound
      obtain rfl : geomTerms (d 0).2 (d 0).1 = ts := Option.some.inj h
      exact ⟨by simp only [geomTerms, List.length_map, List.length_range], by omega,
        (d 0).2, (d 0).1, (hr 0).1, (hr 0).2.1, (hr 0).2.2.1, (hr 0).2.2.2, rfl⟩

/-- **C7.** Whenever `_arithmetic_sequence` returns, every one of its
six terms has magnitude at most 100, and whenever
`_geometric_sequence` returns, its sixth term is at most 1000; in both
cases the returned list is built exactly from some drawn in-range
parameter pair (the offending draws having been discarded wholesale by
the recursion, never clamped). -/
theorem sequence_regeneration_bounds (fuel : ℕ) (dA dG : ℕ → ℤ × ℤ)
    (hA : ∀ k, -9 ≤ (dA k).1 ∧ (dA k).1 ≤ 9 ∧ 1 ≤ (dA k).2 ∧ (dA k).2 ≤ 20)
    (hG : ∀ k, 2 ≤ (dG k).1 ∧ (dG k).1 ≤ 5 ∧ 1 ≤ (dG k).2 ∧ (dG k).2 ≤ 5) :
    (∀ ts, genArithSeq fuel dA = some ts →
      ts.length = 6 ∧ (∀ t ∈ ts, t.natAbs ≤ 100) ∧
      ∃ start step : ℤ, step ≠ 0 ∧ -9 ≤ step ∧ step ≤ 9 ∧ 1 ≤ start ∧ start ≤ 20 ∧
        ts = arithTerms start step) ∧
    (∀ ts, genGeomSeq fuel dG = some ts →
      ts.length = 6 ∧ ts.getD 5 0 ≤ 1000 ∧
      ∃ start r : ℤ, 2 ≤ r ∧ r ≤ 5 ∧ 1 ≤ start ∧ start ≤ 5 ∧
        ts = geomTerms start r) :=
  ⟨fun ts h => genArithSeq_sound fuel dA hA ts h,
   fun ts h => genGeomSeq_sound fuel dG hG ts h⟩

/-- Witness for C7: with draw `(step 3, start 5)` the arithmetic
generator accepts immediately, every term is within 100; with draw
`(ratio 2, start 1)` the geometric generator accepts with sixth term
32 ≤ 1000. -/
theorem sequence_regeneration_bounds_witness :
    genArithSeq 1 drawStep3Start5 = some [5, 8, 11, 14, 17, 20] ∧
    genGeomSeq 1 drawRatio2Start1 = some [1, 2, 4, 8, 16, 32] ∧
    (20 : ℤ).natAbs ≤ 100 ∧ ([1, 2, 4, 8, 16, 32] : List ℤ).getD 5 0 ≤ 1000 := by
  have h := sequence_regeneration_bounds 1 drawStep3Start5 drawRatio2Start1
    (by intro k; simp only [drawStep3Start5]; decide)
    (by intro k; simp only [drawRatio2Start1]; decide)
  refine ⟨by decide, by decide, ?_, ?_⟩
  · exact (h.1 [5, 8, 11, 14, 17, 20] (by decide)).2.1 20 (by decide)
  · exact (h.2 [1, 2, 4, 8, 16, 32] (by decide)).2.1

/-! ### C8: session shuffle atomicity -/

theorem getD_mem {l : List String} {n : ℕ} (h : n < l.length) : l.getD n "" ∈ l := by
  rw [List.getD_eq_get?, List.get?_eq_get h]
  simp [List.get_mem]

/-- **C8.** The session-level shuffle of `BaseMode.initialize` maps the
option list to a permutation of itself, and the option at the
post-shuffle `answer_letter` index is the very option that sat at the
pre-shuffle `answer_letter` index: the correct value is preserved and
the letter is remapped with it, never partially. -/
theorem session_shuffle_atomic (q : Question) (js : ℕ → ℕ)
    (h5 : q.options.length = 5) (hidx : letterIdx q.answer_letter < 5) :
    List.Perm (sessionShuffle q js).options q.options ∧
    (sessionShuffle q js).options.length = 5 ∧
    (sessionShuffle q js).options.getD
      (letterIdx (sessionShuffle q js).answer_letter) ""
      = q.options.getD (letterIdx q.answer_letter) "" := by
  have hperm : List.Perm (sessionShuffle q js).options q.options :=
    selShuffle_perm _ _ _
  have hlen : (sessionShuffle q js).options.length = 5 :=
    hperm.length_eq.trans h5
  refine ⟨hperm, hlen, ?_⟩
  have hmem : q.options.getD (letterIdx q.answer_letter) "" ∈ q.options :=
    getD_mem (h5 ▸ hidx)
  have hmem' : q.options.getD (letterIdx q.answer_letter) ""
      ∈ (sessionShuffle q js).options := hperm.mem_iff.2 hmem
  have hio : List.indexOf (q.options.getD (letterIdx q.answer_letter) "")
      (sessionShuffle q js).options < 5 :=
    hlen ▸ List.indexOf_lt_length.2 hmem'
  have hletter : (sessionShuffle q js).answer_letter
      = Char.ofNat (65 + List.indexOf (q.options.getD (letterIdx q.answer_letter) "")
          (sessionShuffle q js).options) := rfl
  have hli : ∀ idx : ℕ, idx < 5 → letterIdx (Char.ofNat (65 + idx)) = idx := by
    intro idx hidx5
    unfold letterIdx
    rw [charOfNat_letter hidx5]
    omega
  rw [hletter, hli _ hio]
  exact indexOf_getD hmem'

/-- A concrete already-generated question used by closed instances. -/
def sampleQuestion : Question :=
  { prompt := "p", options := ["82", "83", "81", "820", "8"]
    answer_letter := 'A', explanation := "e"
    qtype := "integer_arithmetic", pattern := "", terms := [] }

/-- Witness for C8 on a concrete question and shuffle draw. -/
theorem session_shuffle_atomic_witness :
    List.Perm (sessionShuffle sampleQuestion zeroStream).options sampleQuestion.options ∧
    (sessionShuffle sampleQuestion zeroStream).options.length = 5 ∧
    (sessionShuffle sampleQuestion zeroStream).options.getD
      (letterIdx (sessionShuffle sampleQuestion zeroStream).answer_letter) ""
      = sampleQuestion.options.getD (letterIdx sampleQuestion.answer_letter) "" :=
  session_shuffle_atomic sampleQuestion zeroStream (by decide) (by decide)

/-! ### C9: seeded determinism -/

/-- **C9.** Two factories of the same kind, each constructed with the
same explicit seed immediately before generating (`random.seed(seed)`
overwrites whatever ambient stream state `g1`/`g2` held), produce the
same sequence of question-type selections, position for position — for
any label table and any per-type draw consumption. -/
theorem seeded_type_determinism (labels : List String)
    (consume : String → ℕ → ℕ) (g1 g2 : ℕ) (seed : ℤ) (n : ℕ) :
    runFactory labels consume g1 seed n = runFactory labels consume g2 seed n ∧
    runFactory labels consume g1 seed n
      = genTypeLabels labels consume n (seedFn seed) :=
  ⟨rfl, rfl⟩

/-! ### C10: the correct answer always survives into the options -/

theorem fracDistractors_len (da db dc dd de : ℕ) :
    (fracDistractors da db dc dd de).length ≤ 4 := by
  simp [fracDistractors]

theorem seqDistractors_len (p : String) (ts : List ℤ) :
    (seqDistractors p ts).length ≤ 4 := by
  unfold seqDistractors
  repeat' split
  all_goals simp

/-- **C10.** For either factory, the candidate pool entering
deduplication is `[correct] + distractors` with at most 5 strings
(every sub-type's distractor rule yields at most 4), and it always
contains the correct answer; deduplication, padding and truncation to 5
therefore never remove it, the final list has exactly 5 options, and
the `options.index(correct_answer)` lookup used to derive
`answer_letter` succeeds and returns the correct string. -/
theorem correct_answer_in_options (correct : String) (distractors : List String)
    (pads js : ℕ → ℕ) (h : distractors.length ≤ 4) :
    (correct :: distractors).length ≤ 5 ∧
    correct ∈ assembleOptions correct distractors pads js ∧
    (assembleOptions correct distractors pads js).length = 5 ∧
    List.indexOf correct (assembleOptions correct distractors pads js)
      < (assembleOptions correct distractors pads js).length ∧
    (assembleOptions correct distractors pads js).getD
      (letterIdx (answerLetterOf (assembleOptions correct distractors pads js) correct)) ""
      = correct ∧
    (∀ c, (intDistractors c).length ≤ 4) ∧
    (∀ da db dc dd de : ℕ, (fracDistractors da db dc dd de).length ≤ 4) ∧
    (∀ p ts, (seqDistractors p ts).length ≤ 4) := by
  refine ⟨by simp; omega, assemble_mem correct distractors pads js h,
    assemble_length correct distractors pads js h,
    List.indexOf_lt_length.2 (assemble_mem correct distractors pads js h),
    assemble_answer correct distractors pads js h,
    intDistractors_len, fracDistractors_len, seqDistractors_len⟩

/-- Witness for C10 at a concrete run (the same draws as the C3
counterexample: even with a duplicated option the correct answer is
present and found). -/
theorem correct_answer_in_options_witness :
    "7" ∈ assembleOptions "7" (fracDistractors 2 2 10 3 7) padThree zeroStream ∧
    (assembleOptions "7" (fracDistractors 2 2 10 3 7) padThree zeroStream).length = 5 := by
  have h := correct_answer_in_options "7" (fracDistractors 2 2 10 3 7)
    padThree zeroStream (by decide)
  exact ⟨h.2.1, h.2.2.1⟩

end NumericalTest
